import Mathlib

set_option maxRecDepth 4000

/-!
Shallow embedding of the html2md conversion pipeline (tokenize.rs, parse.rs,
restruct.rs, render.rs, entity.rs, ast.rs, main.rs).  Strings are modelled as
Lean `String` (a wrapper around `List Char`); Rust's byte-oriented operations
on the ASCII inputs used here coincide with the character-oriented ones.
Rust's Unicode-aware classifiers (`char::is_alphanumeric`, `str::to_lowercase`,
`str::trim`) are modelled by their ASCII restrictions, which agree with the
originals on all ASCII input.

A note on the snapshot being verified: the source files come from different
revisions of the repository and are mutually inconsistent in places
(`restruct.rs` passes an attribute map to `parse::Element::new_with_children`
although `parse.rs` declares no attribute field; `main.rs` never declares
`mod entity`).  Each component is embedded faithfully from its own file over
one unified syntax-node type that carries an attribute map (as `ast.rs` and
`restruct.rs` expect); the parser, whose `Element` type has no attributes,
produces elements with an empty attribute map.
-/

/-- Rust `char::is_ascii_whitespace`: space, tab, line feed, form feed,
carriage return. -/
def isRustAsciiWhitespace (c : Char) : Bool :=
  c = ' ' || c = '\t' || c = '\n' || c = '\x0c' || c = '\r'

/-- ASCII lower-casing of one character (Rust `to_ascii_lowercase`). -/
def asciiLowerChar (c : Char) : Char :=
  if 'A' ≤ c ∧ c ≤ 'Z' then Char.ofNat (c.toNat + 32) else c

/-- ASCII lower-casing of a character list. -/
def asciiLowerStr (l : List Char) : String :=
  String.mk (l.map asciiLowerChar)

/-- Split a character list at every occurrence of `c`, keeping empty pieces,
as Rust `str::split(char)` does. -/
def splitOnChar (c : Char) : List Char → List (List Char)
  | [] => [[]]
  | x :: xs =>
    if x = c then [] :: splitOnChar c xs
    else
      match splitOnChar c xs with
      | [] => [[x]]
      | p :: ps => (x :: p) :: ps

/-- Drop one trailing carriage return, as Rust `str::lines` does per line. -/
def stripTrailingCR (l : List Char) : List Char :=
  if l.getLast? = some '\r' then l.dropLast else l

/-- Rust `str::lines`: split on newline, drop the final empty piece produced
by a trailing newline, strip one trailing carriage return from each line. -/
def linesOf (s : String) : List String :=
  let ps := splitOnChar '\n' s.data
  let ps := if ps.getLast? = some [] then ps.dropLast else ps
  ps.map (fun l => String.mk (stripTrailingCR l))

/-- Join strings with a separator (Rust `Vec::join` / `[String]::join`). -/
def joinSep (sep : String) : List String → String
  | [] => ""
  | [x] => x
  | x :: xs => x ++ sep ++ joinSep sep xs

/-- A run of `n` spaces (`Renderer::spaces` in render.rs). -/
def spacesStr : Nat → String
  | 0 => ""
  | n + 1 => spacesStr n ++ " "

/-- Rust `str::ends_with("\n")`: the final character is a newline. -/
def endsWithNewline (s : String) : Bool :=
  s.data.getLast? = some '\n'

/-- Rust `str::trim` restricted to ASCII whitespace. -/
def trimChars (l : List Char) : List Char :=
  ((l.dropWhile isRustAsciiWhitespace).reverse.dropWhile isRustAsciiWhitespace).reverse

/-- Value of a digit character for a radix up to 36 (Rust `char::to_digit`). -/
def digitVal (radix : Nat) (c : Char) : Option Nat :=
  let v : Option Nat :=
    if '0' ≤ c ∧ c ≤ '9' then some (c.toNat - '0'.toNat)
    else if 'a' ≤ c ∧ c ≤ 'z' then some (c.toNat - 'a'.toNat + 10)
    else if 'A' ≤ c ∧ c ≤ 'Z' then some (c.toNat - 'A'.toNat + 10)
    else none
  match v with
  | some n => if n < radix then some n else none
  | none => none

/-- Accumulate digits of the given radix; `none` on any non-digit. -/
def digitsVal (radix : Nat) (acc : Nat) : List Char → Option Nat
  | [] => some acc
  | c :: cs =>
    match digitVal radix c with
    | some d => digitsVal radix (acc * radix + d) cs
    | none => none

/-- Rust `uN::from_str_radix`: optional leading plus sign, at least one digit,
error (here `none`) on any other character or on overflow past `bound`. -/
def fromStrRadix (radix bound : Nat) (l : List Char) : Option Nat :=
  let ds := match l with
    | '+' :: rest => rest
    | rest => rest
  match ds with
  | [] => none
  | _ =>
    match digitsVal radix 0 ds with
    | some n => if n < bound then some n else none
    | none => none

/-! ## Data model (ast.rs) -/

/-- Attribute map (`ast.rs` `AttributeMap`, a `HashMap<String, String>`),
modelled as an association list with unique keys maintained by insertion. -/
abbrev AttrMap := List (String × String)

/-- Lookup in an attribute map (`HashMap::get`). -/
def attrGet (m : AttrMap) (k : String) : Option String :=
  match m.find? (fun p => p.1 = k) with
  | some p => some p.2
  | none => none

/-- Insertion into an attribute map (`HashMap::insert`): replace the value of
an existing key, otherwise add the binding. -/
def attrInsert (m : AttrMap) (k v : String) : AttrMap :=
  match m with
  | [] => [(k, v)]
  | p :: rest => if p.1 = k then (k, v) :: rest else p :: attrInsert rest k v

/-- Tag kind (`ast.rs` `TagKind`). -/
inductive TagKind where
  | opening
  | closing
  | void
deriving DecidableEq, Repr

/-- A tag token's payload (`ast.rs` `Tag`). -/
structure Tag where
  name : String
  kind : TagKind
  attributes : AttrMap
deriving DecidableEq, Repr

/-- Lexical token (`ast.rs` `Token`): `Sgml` declarations are consumed and
discarded, tags and text runs are kept. -/
inductive Token where
  | sgml
  | tag (t : Tag)
  | text (content : String)
deriving DecidableEq, Repr

/-- Syntax-tree node (`ast.rs` `Node` / `Element`): an element owns its tag
name, attribute map and ordered children, or a text leaf. -/
inductive Node where
  | element (tag : String) (attrs : AttrMap) (children : List Node)
  | text (content : String)
deriving Repr

/-- Fixed void-element set (`ast.rs` `is_void_element`). -/
def isVoidElement (t : String) : Bool :=
  t = "area" || t = "base" || t = "br" || t = "col" || t = "embed" ||
  t = "hr" || t = "img" || t = "input" || t = "link" || t = "meta" ||
  t = "param" || t = "source" || t = "track" || t = "wbr"

/-- Fixed block-element set (`ast.rs` `is_block_element`); note that it
contains the synthetic wrapper tag `html2md:successive-lists-wrapper`. -/
def isBlockElement (t : String) : Bool :=
  t = "address" || t = "article" || t = "aside" || t = "blockquote" ||
  t = "canvas" || t = "dd" || t = "div" || t = "dl" || t = "dt" ||
  t = "fieldset" || t = "figcaption" || t = "figure" || t = "footer" ||
  t = "form" || t = "h1" || t = "h2" || t = "h3" || t = "h4" || t = "h5" ||
  t = "h6" || t = "header" || t = "hr" || t = "li" || t = "main" ||
  t = "nav" || t = "noscript" || t = "ol" || t = "p" || t = "pre" ||
  t = "section" || t = "table" || t = "tfoot" || t = "ul" || t = "video" ||
  t = "html2md:successive-lists-wrapper"

/-- Whether a tag is a list element (`Element::is_list_element`). -/
def isListElementTag (t : String) : Bool :=
  t = "ul" || t = "ol"

/-- CSS class tokens of an element (`Element::css_classes`): the `class`
attribute split on single spaces, each token trimmed. -/
def cssClasses (attrs : AttrMap) : List String :=
  match attrGet attrs "class" with
  | some value => (splitOnChar ' ' value.data).map (fun l => String.mk (trimChars l))
  | none => []

/-- List nesting depth of an element (`Element::list_depth`): among the class
tokens containing a hyphen, parse the segment after the last hyphen as a
decimal number; the last class token that parses wins, default 0. -/
def listDepth (attrs : AttrMap) : Nat :=
  let found :=
    ((cssClasses attrs).filter (fun cl => cl.data.contains '-')).filterMap
      (fun cl =>
        fromStrRadix 10 (2 ^ 64) (((splitOnChar '-' cl.data).getLast?).getD []))
  match found.getLast? with
  | some n => n
  | none => 0

/-! ## Tokenizer (tokenize.rs) -/

/-- Tokenizer error (`tokenize.rs` `TokenizeError`). -/
inductive TokenizeError where
  | malformed
  | unexpectedChar (expected actual : Char)
  | unexpectedEOF
deriving DecidableEq, Repr

/-- Result of one reading step: a value plus the remaining characters, an
error plus the remaining characters (`Malformed` is recovered from at the
position reached), or divergence (the Rust attribute loop can spin forever
on input such as `<a ?>`; a fuel counter makes that case explicit). -/
inductive TokRes (α : Type) where
  | ok (a : α) (rest : List Char)
  | err (e : TokenizeError) (rest : List Char)
  | diverge
deriving Repr

/-- Embeds `Tokenizer::skip_whitespaces`. -/
def skipWhitespaces : List Char → List Char
  | [] => []
  | c :: cs => if isRustAsciiWhitespace c then skipWhitespaces cs else c :: cs

/-- Character run of `Tokenizer::read_tag_name`: alphanumeric characters;
end of input while scanning is an error. -/
def readTagNameChars : List Char → Except TokenizeError (List Char × List Char)
  | [] => .error .unexpectedEOF
  | c :: cs =>
    if c.isAlphanum then
      match readTagNameChars cs with
      | .ok (n, r) => .ok (c :: n, r)
      | .error e => .error e
    else .ok ([], c :: cs)

/-- Character run of `Tokenizer::read_attribute_name`: ASCII alphanumerics,
hyphen and underscore; end of input while scanning is an error. -/
def readAttrNameChars : List Char → Except TokenizeError (List Char × List Char)
  | [] => .error .unexpectedEOF
  | c :: cs =>
    if c.isAlphanum || c = '-' || c = '_' then
      match readAttrNameChars cs with
      | .ok (n, r) => .ok (c :: n, r)
      | .error e => .error e
    else .ok ([], c :: cs)

/-- Quoted-value body of `Tokenizer::read_attribute_value`: characters up to
the closing double quote. -/
def readAttrValueChars : List Char → Except TokenizeError (List Char × List Char)
  | [] => .error .unexpectedEOF
  | c :: cs =>
    if c = '"' then .ok ([], cs)
    else
      match readAttrValueChars cs with
      | .ok (v, r) => .ok (c :: v, r)
      | .error e => .error e

/-- Embeds `Tokenizer::read_attribute_value`: expect an opening double quote, then
the value characters, lower-cased. -/
def readAttributeValue : List Char → Except TokenizeError (String × List Char)
  | [] => .error .unexpectedEOF
  | c :: cs =>
    if c = '"' then
      match readAttrValueChars cs with
      | .ok (v, r) => .ok (asciiLowerStr v, r)
      | .error e => .error e
    else .error (.unexpectedChar '"' c)

/-- Embeds `Tokenizer::read_sgml`: consume through the next `>` (the characters
after `<!`), discarding everything. -/
def readSgmlRest : List Char → Except TokenizeError (List Char)
  | [] => .error .unexpectedEOF
  | c :: cs => if c = '>' then .ok cs else readSgmlRest cs

/-- Embeds `Tokenizer::read_attributes`: repeatedly skip whitespace, stop at `/>` or
`>`, otherwise read a name and an optional `="value"` (a missing value
defaults to the name itself).  An iteration that consumes nothing repeats
the same state forever in the source; the fuel counter reports `diverge`
exactly in that case. -/
def readAttributes : Nat → AttrMap → List Char → TokRes (AttrMap × Bool)
  | 0, _, _ => .diverge
  | fuel + 1, attrs, l =>
    match skipWhitespaces l with
    | [] => .err .unexpectedEOF []
    | c :: cs =>
      if c = '/' then
        match skipWhitespaces cs with
        | [] => .err .unexpectedEOF []
        | d :: ds =>
          if d = '>' then .ok (attrs, true) ds
          else .err (.unexpectedChar '>' d) ds
      else if c = '>' then .ok (attrs, false) cs
      else
        match readAttrNameChars (c :: cs) with
        | .error e => .err e []
        | .ok (nameChars, r1) =>
          let name := asciiLowerStr nameChars
          match r1 with
          | '=' :: r2 =>
            match readAttributeValue r2 with
            | .error e => .err e []
            | .ok (value, r3) => readAttributes fuel (attrInsert attrs name value) r3
          | _ => readAttributes fuel (attrInsert attrs name name) r1

/-- Embeds `Tokenizer::read_tag` (the characters after `<`): optional leading slash,
tag name, attributes; void-element names always yield `Void` kind and reject
a leading slash, non-void names reject a trailing slash and otherwise yield
`Close` or `Open`; an empty name is malformed.  All malformed cases are
recoverable and carry the position after the tag. -/
def readTag (l : List Char) : TokRes Token :=
  let (slashBegin, l1) :=
    match l with
    | '/' :: cs => (true, cs)
    | _ => (false, l)
  match readTagNameChars l1 with
  | .error e => .err e []
  | .ok (nameChars, r1) =>
    let name := asciiLowerStr nameChars
    match readAttributes (r1.length + 1) [] r1 with
    | .diverge => .diverge
    | .err e r => .err e r
    | .ok (attrs, slashEnd) rest =>
      if name = "" then .err .malformed rest
      else if isVoidElement name then
        if slashBegin then .err .malformed rest
        else .ok (.tag ⟨name, .void, attrs⟩) rest
      else
        if slashEnd then .err .malformed rest
        else if slashBegin then .ok (.tag ⟨name, .closing, attrs⟩) rest
        else .ok (.tag ⟨name, .opening, attrs⟩) rest

/-- Embeds `Tokenizer::read_text`: a maximal run of characters up to the next `<`. -/
def readText : List Char → List Char × List Char
  | [] => ([], [])
  | c :: cs =>
    if c = '<' then ([], c :: cs)
    else
      let (t, r) := readText cs
      (c :: t, r)

/-- Embeds `Tokenizer::read_token`: `<!` starts a discarded declaration, `<` starts
a tag, anything else starts a text run. -/
def readToken (l : List Char) : TokRes Token :=
  match l with
  | '<' :: cs =>
    match cs with
    | '!' :: ds =>
      match readSgmlRest ds with
      | .ok rest => .ok .sgml rest
      | .error e => .err e []
    | _ => readTag cs
  | _ =>
    let (t, r) := readText l
    .ok (.text (String.mk t)) r

/-- Overall tokenization outcome. -/
inductive TokenizeResult where
  | ok (toks : List Token)
  | err (e : TokenizeError)
  | diverge
deriving DecidableEq, Repr

/-- Embeds `Tokenizer::tokenize` main loop: skip whitespace, stop at end of input,
read a token; `Sgml` tokens are dropped, `Malformed` errors are recovered
from locally, other errors abort.  Every continuing iteration consumes at
least one character, so fuel `length + 1` never runs out except through a
diverging attribute loop. -/
def tokenizeLoop : Nat → List Char → TokenizeResult
  | 0, _ => .diverge
  | fuel + 1, l =>
    match skipWhitespaces l with
    | [] => .ok []
    | l1 =>
      match readToken l1 with
      | .diverge => .diverge
      | .err .malformed rest => tokenizeLoop fuel rest
      | .err e _ => .err e
      | .ok .sgml rest => tokenizeLoop fuel rest
      | .ok tok rest =>
        match tokenizeLoop fuel rest with
        | .ok toks => .ok (tok :: toks)
        | r => r

/-- Embeds `Tokenizer::new(source).tokenize()`. -/
def tokenize (s : String) : TokenizeResult :=
  tokenizeLoop (s.data.length + 1) s.data

/-! ## Parser (parse.rs) -/

/-- Parser error (`parse.rs` `ParseError`). -/
inductive ParseError where
  | unexpectedEOF
  | unexpectedToken
deriving DecidableEq, Repr

/-- Result of a parsing step: a value with the remaining tokens, an error, or
fuel exhaustion (`noFuel` is unreachable with the generous fuel used below:
every recursive call of the source parser consumes input). -/
inductive PRes (α : Type) where
  | ok (a : α) (rest : List Token)
  | err (e : ParseError)
  | noFuel

/-- Embeds `Parser::expect_open_tag_with_name`. -/
def expectOpenTagWithName (name : String) : List Token → PRes Tag
  | .tag t :: rest =>
    if t.name = name ∧ t.kind = .opening then .ok t rest else .err .unexpectedToken
  | _ :: _ => .err .unexpectedToken
  | [] => .err .unexpectedEOF

/-- Embeds `Parser::expect_close_tag_with_name`. -/
def expectCloseTagWithName (name : String) : List Token → PRes Tag
  | .tag t :: rest =>
    if t.name = name ∧ t.kind = .closing then .ok t rest else .err .unexpectedToken
  | _ :: _ => .err .unexpectedToken
  | [] => .err .unexpectedEOF

/-- Embeds `Parser::expect_text`. -/
def expectText : List Token → PRes Node
  | .text content :: rest => .ok (.text content) rest
  | _ :: _ => .err .unexpectedToken
  | [] => .err .unexpectedEOF

mutual
/-- Embeds `Parser::expect_element`: an `Open` tag starts an element whose children
run to the matching close tag, a `Void` tag is a childless element, anything
else is an unexpected token.  `parse.rs`'s `Element` carries no attribute
field, so parsed elements get an empty attribute map. -/
def expectElement : Nat → List Token → PRes Node
  | 0, _ => .noFuel
  | _ + 1, [] => .err .unexpectedEOF
  | fuel + 1, tok :: rest =>
    match tok with
    | .tag t =>
      match t.kind with
      | .opening =>
        match elementOrTextNodes fuel rest with
        | .ok children rest2 =>
          match expectCloseTagWithName t.name rest2 with
          | .ok _ rest3 => .ok (.element t.name [] children) rest3
          | .err e => .err e
          | .noFuel => .noFuel
        | .err e => .err e
        | .noFuel => .noFuel
      | .void => .ok (.element t.name [] []) rest
      | .closing => .err .unexpectedToken
    | _ => .err .unexpectedToken

/-- Embeds `Parser::element_or_text_nodes`: children of a body-like element; stops
at a `Close` tag, errors at end of input or at an `Sgml` token. -/
def elementOrTextNodes : Nat → List Token → PRes (List Node)
  | 0, _ => .noFuel
  | _ + 1, [] => .err .unexpectedEOF
  | fuel + 1, tok :: rest =>
    match tok with
    | .tag t =>
      match t.kind with
      | .opening | .void =>
        match expectElement fuel (tok :: rest) with
        | .ok n rest2 =>
          match elementOrTextNodes fuel rest2 with
          | .ok ns rest3 => .ok (n :: ns) rest3
          | .err e => .err e
          | .noFuel => .noFuel
        | .err e => .err e
        | .noFuel => .noFuel
      | .closing => .ok [] (tok :: rest)
    | .text _ =>
      match expectText (tok :: rest) with
      | .ok n rest2 =>
        match elementOrTextNodes fuel rest2 with
        | .ok ns rest3 => .ok (n :: ns) rest3
        | .err e => .err e
        | .noFuel => .noFuel
      | .err e => .err e
      | .noFuel => .noFuel
    | .sgml => .err .unexpectedToken

/-- Embeds `Parser::element_nodes`: children of `head`; stops at any token that is
not an `Open` or `Void` tag, errors at end of input. -/
def elementNodes : Nat → List Token → PRes (List Node)
  | 0, _ => .noFuel
  | _ + 1, [] => .err .unexpectedEOF
  | fuel + 1, tok :: rest =>
    match tok with
    | .tag t =>
      match t.kind with
      | .opening | .void =>
        match expectElement fuel (tok :: rest) with
        | .ok n rest2 =>
          match elementNodes fuel rest2 with
          | .ok ns rest3 => .ok (n :: ns) rest3
          | .err e => .err e
          | .noFuel => .noFuel
        | .err e => .err e
        | .noFuel => .noFuel
      | .closing => .ok [] (tok :: rest)
    | _ => .ok [] (tok :: rest)
end

/-- Embeds `Parser::head`: `<head>`, element children, `</head>`. -/
def parseHead (fuel : Nat) (toks : List Token) : PRes Node :=
  match expectOpenTagWithName "head" toks with
  | .ok t rest =>
    match elementNodes fuel rest with
    | .ok children rest2 =>
      match expectCloseTagWithName "head" rest2 with
      | .ok _ rest3 => .ok (.element t.name [] children) rest3
      | .err e => .err e
      | .noFuel => .noFuel
    | .err e => .err e
    | .noFuel => .noFuel
  | .err e => .err e
  | .noFuel => .noFuel

/-- Embeds `Parser::body`: `<body>`, element-or-text children, `</body>`. -/
def parseBody (fuel : Nat) (toks : List Token) : PRes Node :=
  match expectOpenTagWithName "body" toks with
  | .ok t rest =>
    match elementOrTextNodes fuel rest with
    | .ok children rest2 =>
      match expectCloseTagWithName "body" rest2 with
      | .ok _ rest3 => .ok (.element t.name [] children) rest3
      | .err e => .err e
      | .noFuel => .noFuel
    | .err e => .err e
    | .noFuel => .noFuel
  | .err e => .err e
  | .noFuel => .noFuel

/-- Embeds `Parser::html`: the top-level rule demands exactly the skeleton
`<html><head>…</head><body>…</body></html>`. -/
def parseHtml (fuel : Nat) (toks : List Token) : PRes Node :=
  match expectOpenTagWithName "html" toks with
  | .ok t rest =>
    match parseHead fuel rest with
    | .ok headNode rest2 =>
      match parseBody fuel rest2 with
      | .ok bodyNode rest3 =>
        match expectCloseTagWithName "html" rest3 with
        | .ok _ rest4 => .ok (.element t.name [] [headNode, bodyNode]) rest4
        | .err e => .err e
        | .noFuel => .noFuel
      | .err e => .err e
      | .noFuel => .noFuel
    | .err e => .err e
    | .noFuel => .noFuel
  | .err e => .err e
  | .noFuel => .noFuel

/-- Overall parse outcome. -/
inductive ParseOutcome where
  | ok (n : Node)
  | err (e : ParseError)
  | noFuel
deriving Repr

/-- Embeds `Parser::parse`: run the `html` rule; any tokens remaining after the
closing `</html>` are silently ignored, as in the source. -/
def parseTokens (toks : List Token) : ParseOutcome :=
  match parseHtml (3 * toks.length + 8) toks with
  | .ok n _ => .ok n
  | .err e => .err e
  | .noFuel => .noFuel

/-! ## Entity translator (entity.rs) -/

/-- Decode a numeric code point if it is a valid Unicode scalar value
(`char::from_u32`), else the empty string, mirroring the `None`/`Err` arms
of `translate_hexadecimal_reference` / `translate_decimal_reference`. -/
def charFromU32 (n : Nat) : String :=
  if n < 0xd800 ∨ (0xe000 ≤ n ∧ n < 0x110000) then
    String.mk [Char.ofNat n]
  else ""

/-- Embeds `Translator::translate`, applied to the text between `&` and `;`:
`#x`/`#X` starts a hexadecimal reference, `#` a decimal one; anything else
is a reserved (named) reference reproduced verbatim with its delimiters.
A numeric reference that fails to parse or names an invalid scalar value
becomes the empty string. -/
def translateEntity (name : String) : String :=
  match name.data with
  | '#' :: rest =>
    match rest with
    | 'x' :: r2 =>
      match fromStrRadix 16 (2 ^ 32) r2 with
      | some code => charFromU32 code
      | none => ""
    | 'X' :: r2 =>
      match fromStrRadix 16 (2 ^ 32) r2 with
      | some code => charFromU32 code
      | none => ""
    | _ =>
      match fromStrRadix 10 (2 ^ 32) rest with
      | some code => charFromU32 code
      | none => ""
  | l => "&" ++ String.mk l ++ ";"

/-! ## Restructurer (restruct.rs) -/

mutual
/-- Embeds `collect_tr_nodes`: pre-order collection of `tr` elements; a `tr` is
collected whole (no descent into it), any other element is searched through
its children, text collects nothing.  Note that the search descends into
nested `table` elements like any other non-`tr` element. -/
def collectTr : Node → List Node
  | .text _ => []
  | .element t a cs => if t = "tr" then [.element t a cs] else collectTrList cs

/-- Collection of `tr` elements from a child list, in document order. -/
def collectTrList : List Node → List Node
  | [] => []
  | n :: ns => collectTr n ++ collectTrList ns
end

/-- Embeds `restruct_table_element`: rebuild a `table` element (same attributes)
whose children are a `thead` holding the first collected `tr` and a `tbody`
holding the remaining ones; no children at all when no `tr` was found.
The collected `tr` subtrees are not themselves restructured. -/
def restructTable (attrs : AttrMap) (children : List Node) : Node :=
  match collectTrList children with
  | [] => .element "table" attrs []
  | h :: t =>
    .element "table" attrs
      [.element "thead" [] [h], .element "tbody" [] t]

mutual
/-- Embeds `restruct` / `restruct_element` / `restruct_text`: rebuild a node,
dispatching `table` elements to the table rule and rebuilding every other
element with recursively restructured children.  This snapshot of
restruct.rs contains no list-grouping rule: no
`html2md:successive-lists-wrapper` element is ever created. -/
def restruct : Node → Node
  | .text s => .text s
  | .element t a cs =>
    if t = "table" then restructTable a cs
    else .element t a (restructList cs)

/-- Embeds `restruct_arbitrary_element`'s child loop. -/
def restructList : List Node → List Node
  | [] => []
  | c :: cs => restruct c :: restructList cs
end

/-! ## Renderer (render.rs) -/

/-- Renderer error (`render.rs` `RenderError`). -/
inductive RenderError where
  | outsideOfList
deriving DecidableEq, Repr

/-- Failure of the rendering traversal: either the source's `RenderError`,
or reaching one of its panicking branches (`unreachable!()` in the `html`
handler and the table-separator builder, the `children[0]` index in the
`thead` handler). -/
inductive RFail where
  | outsideOfList
  | panicked
deriving DecidableEq, Repr

/-- Embeds `Context::get_last_list_tag`: scan the context stack from the top (list
head) for the nearest `ul`/`ol` frame. -/
def getLastListTag (ctx : List String) : Option String :=
  ctx.find? (fun t => t = "ul" || t = "ol")

/-- Embeds `Renderer::prepend_list_marker`: the marker before the first line, an
equivalent run of spaces before each continuation line. -/
def prependListMarker (marker content : String) : String :=
  let sp := spacesStr marker.data.length
  joinSep "\n"
    ((linesOf content).enum.map
      (fun p => (if p.1 = 0 then marker else sp) ++ " " ++ p.2))

/-- Line-quoting step of `render_blockquote_element`: `> ` before every
line, lines rejoined with newlines. -/
def quoteLines (content : String) : String :=
  joinSep "\n" ((linesOf content).map (fun l => "> " ++ l))

/-- Separator row built by `render_table_separator_with_tr_node`: `|---`
once per column, then a closing `|`. -/
def separatorRow : Nat → String
  | 0 => "|"
  | n + 1 => "|---" ++ separatorRow n
/- note: the Rust loop appends `|---` `n` times and then one `|`; prepending
here yields the same string since all pieces are identical. -/

/-- Row/column matrix emission of `render_tr_element`: the matrix has one row
per line of the tallest cell and one column per cell, missing entries are
empty; each row is emitted as `| c1 | c2 | … |`. -/
def trMatrixString (cells : List String) : String :=
  let numrows := (cells.map (fun c => (linesOf c).length)).foldr max 0
  joinSep "\n"
    ((List.range numrows).map
      (fun r => "| " ++ joinSep " | " (cells.map (fun c => (linesOf c).getD r "")) ++ " |"))

/-- Insert a string into a lexicographically sorted list. -/
def insertSorted (x : String) : List String → List String
  | [] => [x]
  | y :: ys => if x ≤ y then x :: y :: ys else y :: insertSorted x ys

/-- Sort strings lexicographically (`names.sort()` in
`render_element_in_html_form`). -/
def sortStrings (l : List String) : List String :=
  l.foldr insertSorted []

/-- Attribute portion of the open tag built by
`render_element_in_html_form`: attributes sorted by name, values
double-quoted. -/
def attrString (a : AttrMap) : String :=
  joinSep ""
    ((sortStrings (a.map Prod.fst)).map
      (fun n => " " ++ n ++ "=\"" ++ ((attrGet a n).getD "") ++ "\""))

/-- Dispatch category of one tag name, read off the `match` in
`Renderer::render_element`.  Tags with textually identical handler bodies
share a category; each category's body is reproduced in `renderElement`. -/
inductive Handler where
  | hChildren
  | hWrap (pre suf : String)
  | hContainer
  | hBlockquote
  | hCtxed
  | hLi
  | hA
  | hHtmlForm
  | hBr
  | hHr
  | hHtml
  | hThead
  | hTr
  | hNothing
  | hUnsupported
deriving DecidableEq, Repr

/-- Tags whose handler is a bare `render_children` call. -/
def passthroughTags : List String :=
  ["abbr", "address", "article", "aside", "b", "bdi", "bdo", "cite", "data",
   "dd", "details", "dfn", "div", "dl", "dt", "i", "ins", "kbd", "main",
   "mark", "menu", "nav", "pre", "q", "ruby", "s", "samp", "section",
   "small", "span", "sub", "summary", "sup", "time", "u", "var", "wbr"]

/-- Tags rendered to empty output (`render_nothing` arms: the ruby
annotations, the table-structure arms, and the suppressed-element list). -/
def nothingTags : List String :=
  ["rp", "rt", "caption", "colgroup", "col", "tfoot", "area", "audio",
   "button", "canvas", "datalist", "dialog", "embed", "fieldset",
   "figcaption", "figure", "footer", "form", "header", "hgroup", "iframe",
   "input", "label", "legend", "map", "meter", "noscript", "object",
   "optgroup", "option", "output", "picture", "progress", "script",
   "search", "select", "slot", "source", "template", "textarea", "track",
   "video"]

/-- The tag dispatch of `Renderer::render_element`. -/
def handlerOf (t : String) : Handler :=
  if t = "a" then .hA
  else if t = "blockquote" then .hBlockquote
  else if t = "body" then .hContainer
  else if t = "br" then .hBr
  else if t = "code" then .hWrap "`" "`"
  else if t = "del" then .hWrap "~" "~"
  else if t = "em" then .hWrap "_" "_"
  else if t = "h1" then .hWrap "# " ""
  else if t = "h2" then .hWrap "## " ""
  else if t = "h3" then .hWrap "### " ""
  else if t = "h4" then .hWrap "#### " ""
  else if t = "h5" then .hWrap "##### " ""
  else if t = "h6" then .hWrap "###### " ""
  else if t = "hr" then .hHr
  else if t = "html" then .hHtml
  else if t = "img" then .hHtmlForm
  else if t = "li" then .hLi
  else if t = "ol" then .hCtxed
  else if t = "p" then .hWrap "" ""
  else if t = "strong" then .hWrap "**" "**"
  else if t = "ul" then .hCtxed
  else if t = "table" then .hCtxed
  else if t = "thead" then .hThead
  else if t = "tbody" then .hCtxed
  else if t = "tr" then .hTr
  else if t = "th" then .hContainer
  else if t = "td" then .hContainer
  else if passthroughTags.contains t then .hChildren
  else if nothingTags.contains t then .hNothing
  else .hUnsupported

/-- Whether a node is an element tagged `body` (the predicate of the
`find` in `render_html_element`). -/
def isBodyNode : Node → Bool
  | .element t _ _ => t = "body"
  | .text _ => false

/-- Tag-and-attribute wrapping step of `render_element_in_html_form`: the
literal open tag with sorted, double-quoted attributes; void elements stop
there, others wrap the rendered-children result between open and close
tags. -/
def htmlFormWrap (t : String) (a : AttrMap) (r : Except RFail String) :
    Except RFail String :=
  let openTag := "<" ++ t ++ attrString a ++ ">"
  if isVoidElement t then .ok openTag
  else
    match r with
    | .ok content => .ok (openTag ++ content ++ "</" ++ t ++ ">")
    | .error e => .error e

mutual
/-- Embeds `Renderer::render_node` with `Renderer::render_element` inlined: push
the parent tag onto the context stack (the pop is implicit because the
stack is passed functionally), then run the handler selected by
`handlerOf`; each arm reproduces the corresponding handler body from
render.rs.  `render_text` returns text content verbatim (this snapshot of
render.rs performs no entity decoding). -/
def renderNode (ctx : List String) (parentTag : String) : Node → Except RFail String
  | .text content => .ok content
  | .element t a cs =>
    match handlerOf t with
    | .hChildren => renderChildren (parentTag :: ctx) t cs
    | .hWrap pre suf =>
      match renderChildren (parentTag :: ctx) t cs with
      | .ok content => .ok (pre ++ content ++ suf)
      | .error e => .error e
    | .hContainer => renderContainer (parentTag :: ctx) t [] "" cs
    | .hBlockquote =>
      match renderContainer (parentTag :: ctx) t [] "" cs with
      | .ok content => .ok (quoteLines content)
      | .error e => .error e
    | .hCtxed =>
      match renderParts (parentTag :: ctx) t cs with
      | .ok parts => .ok (joinSep "\n" parts)
      | .error e => .error e
    | .hLi =>
      match getLastListTag (parentTag :: ctx) with
      | some "ul" =>
        match renderContainer (parentTag :: ctx) t [] "" cs with
        | .ok content => .ok (prependListMarker "-" content)
        | .error e => .error e
      | some "ol" =>
        match renderContainer (parentTag :: ctx) t [] "" cs with
        | .ok content => .ok (prependListMarker "1." content)
        | .error e => .error e
      | _ => .error .outsideOfList
    | .hA =>
      match renderChildren (parentTag :: ctx) t cs with
      | .ok content =>
        if (attrGet a "name").isSome then htmlFormWrap t a (.ok content)
        else
          match attrGet a "href" with
          | some href => .ok ("[" ++ content ++ "](" ++ href ++ ")")
          | none => .ok content
      | .error e => .error e
    | .hHtmlForm => htmlFormWrap t a (renderChildren (parentTag :: ctx) t cs)
    | .hBr => .ok "\n"
    | .hHr => .ok "---"
    | .hHtml => renderHtmlBody (parentTag :: ctx) t cs
    | .hThead =>
      match renderChildren (parentTag :: ctx) t cs with
      | .ok tr =>
        match cs with
        | [] => .error .panicked
        | n :: _ =>
          match n with
          | .element tt _ tcs =>
            if tt = "tr" then .ok (tr ++ "\n" ++ separatorRow tcs.length)
            else .error .panicked
          | .text _ => .error .panicked
      | .error e => .error e
    | .hTr =>
      match renderParts (parentTag :: ctx) t cs with
      | .ok cells => .ok (trMatrixString cells)
      | .error e => .error e
    | .hNothing => .ok ""
    | .hUnsupported => .ok ""

/-- Embeds `Renderer::render_children`: children rendered in order with the
element tag as the pushed parent frame, outputs concatenated. -/
def renderChildren (ctx : List String) (tag : String) : List Node → Except RFail String
  | [] => .ok ""
  | c :: rest =>
    match renderNode ctx tag c with
    | .ok s =>
      match renderChildren ctx tag rest with
      | .ok r => .ok (s ++ r)
      | .error e => .error e
    | .error e => .error e

/-- Child-output collection shared by `render_ctxed_children` (joined with
newlines) and `render_tr_element` (cell list). -/
def renderParts (ctx : List String) (tag : String) : List Node → Except RFail (List String)
  | [] => .ok []
  | c :: rest =>
    match renderNode ctx tag c with
    | .ok s =>
      match renderParts ctx tag rest with
      | .ok r => .ok (s :: r)
      | .error e => .error e
    | .error e => .error e

/-- Embeds `Renderer::render_container_element`: accumulate children into
paragraphs, opening a new paragraph whenever a block-level element child
follows non-empty accumulated content; paragraphs joined with blank
lines. -/
def renderContainer (ctx : List String) (tag : String) (parts : List String)
    (part : String) : List Node → Except RFail String
  | [] => .ok (joinSep "\n\n" (parts ++ [part]))
  | n :: rest =>
    match renderNode ctx tag n with
    | .ok content =>
      match n with
      | .element ct _ _ =>
        if isBlockElement ct ∧ part.data.length > 0 then
          renderContainer ctx tag (parts ++ [part]) content rest
        else
          renderContainer ctx tag parts (part ++ content) rest
      | .text _ => renderContainer ctx tag parts (part ++ content) rest
    | .error e => .error e

/-- Embeds `Renderer::render_html_element`: find and render the first `body`
child; the source marks the no-body case `unreachable!()`, a panic. -/
def renderHtmlBody (ctx : List String) (t : String) : List Node → Except RFail String
  | [] => .error .panicked
  | n :: rest =>
    if isBodyNode n then renderNode ctx t n else renderHtmlBody ctx t rest
end

/-- Embeds `Renderer::render`: render the root under an empty parent frame and
append one newline when the result does not already end with one. -/
def render (n : Node) : Except RFail String :=
  match renderNode [] "" n with
  | .ok r => .ok (if endsWithNewline r then r else r ++ "\n")
  | .error e => .error e

/-! ## Pipeline (main.rs `convert`) -/

/-- Any error surfaced by `convert` in main.rs (the boxed `dyn Error`),
together with the two abnormal outcomes the embedding makes explicit:
a renderer panic and tokenizer divergence. -/
inductive ConvError where
  | tokenizeErr (e : TokenizeError)
  | parseErr (e : ParseError)
  | renderOutsideOfList
  | renderPanicked
  | tokenizerDiverged
  | parserNoFuel
deriving DecidableEq, Repr

/-- Embeds `convert` in main.rs: tokenize, parse, restructure, render. -/
def convert (source : String) : Except ConvError String :=
  match tokenize source with
  | .diverge => .error .tokenizerDiverged
  | .err e => .error (.tokenizeErr e)
  | .ok toks =>
    match parseTokens toks with
    | .noFuel => .error .parserNoFuel
    | .err e => .error (.parseErr e)
    | .ok node =>
      match render (restruct node) with
      | .error .outsideOfList => .error .renderOutsideOfList
      | .error .panicked => .error .renderPanicked
      | .ok md => .ok md

/-! ## Safety side conditions for the renderer

The renderer has two panicking branches: the `html` handler's
`unreachable!()` when no `body` child exists, and the `thead` handler's
`children[0]` access plus the separator builder's `tr`-shape checks.  The
following executable predicate states the local conditions under which
neither branch can fire anywhere in a tree. -/

/-- Local panic-freedom condition of one element: a `thead`-dispatched
element must have a first child that is a `tr` element, an
`html`-dispatched element must have a `body` child; all other handlers
have no panicking branch. -/
def safeLocal (t : String) (cs : List Node) : Bool :=
  match handlerOf t with
  | .hThead =>
    match cs with
    | .element tt _ _ :: _ => tt = "tr"
    | _ => false
  | .hHtml => cs.any isBodyNode
  | _ => true

mutual
/-- Every element of the tree satisfies `safeLocal`. -/
def safeNode : Node → Bool
  | .text _ => true
  | .element t _ cs => safeLocal t cs && safeList cs

/-- Every element of every tree in the list satisfies `safeLocal`. -/
def safeList : List Node → Bool
  | [] => true
  | n :: ns => safeNode n && safeList ns
end

/-! ## Sanity checks: concrete behaviors of the embedded pipeline,
matching the unit expectations recorded in the sources where those hold. -/

example : listDepth [("class", "foo-2 bar-3 buz-4")] = 4 := rfl
example : listDepth [("class", "foo-bar")] = 0 := rfl
example : listDepth [("class", "foo-2 bar")] = 2 := rfl
example : listDepth [("class", "")] = 0 := rfl
example : tokenize "<html></html>" =
    .ok [.tag ⟨"html", .opening, []⟩, .tag ⟨"html", .closing, []⟩] := rfl
example : tokenize "<!DOCTYPE html>\n<HTML >" = .ok [.tag ⟨"html", .opening, []⟩] := rfl
example : tokenize "<br/>" = .ok [.tag ⟨"br", .void, []⟩] := rfl
example : tokenize "</br>" = .ok [] := rfl
example : tokenize "<a/>x" = .ok [.text "x"] := rfl
example : tokenize "<img src=\"Hello.PNG\" disabled>" =
    .ok [.tag ⟨"img", .void, [("src", "hello.png"), ("disabled", "disabled")]⟩] := rfl
example : tokenize "<a" = .err .unexpectedEOF := rfl
example : tokenize "<>" = .ok [] := rfl
example : translateEntity "nbsp" = "&nbsp;" := rfl
example : translateEntity "#35" = "#" := rfl
example : translateEntity "#1234" = "Ӓ" := rfl
example : translateEntity "#xd06" = "ആ" := rfl
example : translateEntity "#Xcab" = "ಫ" := rfl
example :
    restruct (.element "table" [] [.element "tr" [] [], .element "tr" [] [.text "x"]]) =
      .element "table" []
        [.element "thead" [] [.element "tr" [] []],
         .element "tbody" [] [.element "tr" [] [.text "x"]]] := rfl
example : render (.element "body" [] [.text "hello"]) = .ok "hello\n" := rfl
example :
    render (.element "body" []
      [.element "h1" [] [.text "H1"], .element "h2" [] [.text "H2"]]) =
      .ok "# H1\n\n## H2\n" := rfl
example :
    render (.element "body" []
      [.element "ul" [] [.element "li" [] [.text "hello"],
                         .element "li" [] [.text "world"]]]) =
      .ok "- hello\n- world\n" := rfl
example :
    render (.element "body" []
      [.element "ol" [] [.element "li" [] [.text "hello", .element "br" [] [],
                                           .text "world"]]]) =
      .ok "1. hello\n   world\n" := rfl
example :
    render (.element "body" []
      [.element "blockquote" [] [.text "hello", .element "br" [] [], .text "world"]]) =
      .ok "> hello\n> world\n" := rfl
example :
    convert "<!DOCTYPE html><html><head></head><body>Hello!</body></html>" =
      .ok "Hello!\n" := rfl
example :
    convert "<html><head></head><body><p>para1</p><p>para2</p></body></html>" =
      .ok "para1\n\npara2\n" := rfl
example :
    convert "<html><head></head><body><table><tr><th>1,1</th><th>1,2</th></tr><tr><td>2,1</td><td>2,2</td></tr><tr><td>3,1</td><td>3,2</td></tr></table></body></html>" =
      .ok "| 1,1 | 1,2 |\n|---|---|\n| 2,1 | 2,2 |\n| 3,1 | 3,2 |\n" := rfl
example :
    convert "<html><head></head><body><ol><li>hello</li><li>world</li></ol></body></html>" =
      .ok "1. hello\n1. world\n" := rfl

/-! ## Induction principle for syntax trees -/

/-- Strong induction over syntax nodes: the element case may assume the
property for every child. -/
theorem nodeInductionOn (P : Node → Prop)
    (ht : ∀ s, P (Node.text s))
    (he : ∀ t a cs, (∀ c ∈ cs, P c) → P (Node.element t a cs)) :
    ∀ n, P n := by
  suffices h : ∀ k (m : Node), sizeOf m ≤ k → P m from fun n => h (sizeOf n) n le_rfl
  intro k
  induction k with
  | zero =>
    intro m hm
    cases m <;> simp_arith at hm
  | succ k ih =>
    intro m hm
    cases m with
    | text s => exact ht s
    | element t a cs =>
      refine he t a cs (fun c hc => ih c ?_)
      have h1 : sizeOf c < sizeOf cs := List.sizeOf_lt_of_mem hc
      have h2 : sizeOf (Node.element t a cs) = 1 + sizeOf t + sizeOf a + sizeOf cs := by
        simp
      omega

/-! ## Restructurer lemmas -/

/-- The child loop of `restruct_arbitrary_element` is a map. -/
theorem restructList_eq_map (l : List Node) : restructList l = l.map restruct := by
  induction l with
  | nil => simp [restructList]
  | cons c cs ih => simp [restructList, ih]

/-- Membership in a list collection comes from membership in one child. -/
theorem mem_collectTrList (l : List Node) (m : Node) (hm : m ∈ collectTrList l) :
    ∃ c ∈ l, m ∈ collectTr c := by
  induction l with
  | nil => simp [collectTrList] at hm
  | cons c cs ih =>
    rw [collectTrList, List.mem_append] at hm
    rcases hm with h | h
    · exact ⟨c, List.mem_cons_self c cs, h⟩
    · obtain ⟨d, hd, hmd⟩ := ih h
      exact ⟨d, List.mem_cons_of_mem c hd, hmd⟩

/-- Everything `collect_tr_nodes` collects is an element tagged `tr`. -/
theorem collectTr_shape :
    ∀ n, ∀ m ∈ collectTr n, ∃ a cs, m = Node.element "tr" a cs := by
  intro n
  induction n using nodeInductionOn with
  | ht s => simp [collectTr]
  | he t a cs ih =>
    intro m hm
    rw [collectTr] at hm
    by_cases htag : t = "tr"
    · rw [if_pos htag] at hm
      rw [List.mem_singleton] at hm
      subst hm
      exact ⟨a, cs, by rw [htag]⟩
    · rw [if_neg htag] at hm
      obtain ⟨c, hc, hmc⟩ := mem_collectTrList cs m hm
      exact ih c hc m hmc

/-- Collecting from a list of `tr`-shaped nodes returns the list itself. -/
theorem collectTrList_of_tr_shaped :
    ∀ l : List Node, (∀ m ∈ l, ∃ a cs, m = Node.element "tr" a cs) →
      collectTrList l = l := by
  intro l
  induction l with
  | nil => intro _; rfl
  | cons c cs ih =>
    intro h
    obtain ⟨a, cs2, hc⟩ := h c (List.mem_cons_self c cs)
    subst hc
    rw [collectTrList, ih (fun m hm => h m (List.mem_cons_of_mem _ hm))]
    simp [collectTr]

/-- Restructuring a table element applies the table rule. -/
theorem restruct_table_eq (a : AttrMap) (cs : List Node) :
    restruct (Node.element "table" a cs) = restructTable a cs := by
  simp [restruct]

/-- The output of the table rule is a fixed point of `restruct`. -/
theorem restructTable_fix (a : AttrMap) (cs : List Node) :
    restruct (restructTable a cs) = restructTable a cs := by
  have hshape : ∀ m ∈ collectTrList cs, ∃ a2 cs2, m = Node.element "tr" a2 cs2 := by
    intro m hm
    obtain ⟨c, hc, hmc⟩ := mem_collectTrList cs m hm
    exact collectTr_shape c m hmc
  rw [restructTable]
  cases h : collectTrList cs with
  | nil => simp [restruct, restructTable, collectTrList]
  | cons hd tl =>
    rw [h] at hshape
    obtain ⟨a2, cs2, hhd⟩ := hshape hd (List.mem_cons_self hd tl)
    have htl : collectTrList tl = tl :=
      collectTrList_of_tr_shaped tl (fun m hm => hshape m (List.mem_cons_of_mem _ hm))
    rw [restruct_table_eq, restructTable, collectTrList, collectTrList, collectTrList,
      List.append_nil, collectTr, collectTr, if_neg (by decide), if_neg (by decide),
      collectTrList, collectTrList, List.append_nil, htl, hhd, collectTr, if_pos rfl, ← hhd,
      List.singleton_append]

/-- C9: restructuring is idempotent: for every syntax-tree node `n`,
`restruct (restruct n) = restruct n`; in particular an already-canonical
table (one `thead` holding one `tr` followed by one `tbody` holding the
remaining `tr` nodes, as produced by the table rule) restructures to
itself, its attributes preserved. -/
theorem restruct_idempotent : ∀ n, restruct (restruct n) = restruct n := by
  intro n
  induction n using nodeInductionOn with
  | ht s => simp [restruct]
  | he t a cs ih =>
    by_cases htag : t = "table"
    · subst htag
      rw [restruct_table_eq, restructTable_fix]
    · rw [restruct, if_neg htag, restruct, if_neg htag]
      rw [restructList_eq_map, restructList_eq_map, List.map_map]
      congr 1
      exact List.map_congr_left (fun c hc => ih c hc)

/-! ## Claim theorems -/

/-- C1 (code_bug evidence): this snapshot's restructurer leaves a maximal
run of adjacent `ul`/`ol` siblings exactly where it found them — no
synthetic `successive-lists-wrapper` element is created — even though
`ast.rs` declares the wrapper tag in its block-element set (dead without
the wrapping rule) and the list-rendering expectations in main.rs require
it. -/
theorem restruct_does_not_wrap_list_runs :
    restruct (.element "body" []
      [.element "ul" [] [.element "li" [] [.text "a"]],
       .element "ol" [] [.element "li" [] [.text "b"]]]) =
      .element "body" []
        [.element "ul" [] [.element "li" [] [.text "a"]],
         .element "ol" [] [.element "li" [] [.text "b"]]] ∧
    isBlockElement "html2md:successive-lists-wrapper" = true := ⟨rfl, rfl⟩

/-- C2 (code_bug evidence): converting `<body>hello</body>` fails with the
parser's `UnexpectedToken` — the top-level rule of parse.rs demands an
`<html><head>…</head><body>…</body></html>` skeleton — although the test
`test_convert_only_body` in main.rs asserts the conversion succeeds and
returns `"hello\n"`. -/
theorem convert_bare_body_fails :
    convert "<body>hello</body>" = .error (.parseErr .unexpectedToken) := rfl

/-- C3 (code_bug evidence): the rendering pipeline leaves the character
reference `&#1234;` verbatim — `render_text` in this snapshot of render.rs
returns text content unchanged and never invokes the entity translator
(entity.rs is not even declared as a module in main.rs) — although
`Translator::translate` itself would decode `#1234` to `Ӓ` and the test
`test_convert_entity` in main.rs asserts the pipeline output `"Ӓ\n"`. -/
theorem convert_leaves_entities_verbatim :
    convert "<html><head></head><body>&#1234;</body></html>" = .ok "&#1234;\n" ∧
    translateEntity "#1234" = "Ӓ" := ⟨rfl, rfl⟩

/-- C5 (counterexample): the `tr` search of `collect_tr_nodes` does cross
into a nested `table`: a table whose only `tr` lies inside an inner table
(not shielded by any `tr`) is rebuilt with that `tr` in its `thead`,
whereas the claim requires the search not to cross nested tables and hence
a childless table here. -/
theorem collect_crosses_nested_tables :
    restruct (.element "table" []
      [.element "div" [] [.element "table" [] [.element "tr" [] [.text "x"]]]]) =
      .element "table" []
        [.element "thead" [] [.element "tr" [] [.text "x"]],
         .element "tbody" [] []] ∧
    restruct (.element "table" []
      [.element "div" [] [.element "table" [] [.element "tr" [] [.text "x"]]]]) ≠
      .element "table" [] [] := by
  refine ⟨rfl, ?_⟩
  intro h
  simp [restruct, restructTable, collectTrList, collectTr] at h

/-- C5 (amended): for every element tagged `table`, restructuring collects
`tr` descendants by the pre-order search of `collect_tr_nodes` — which
stops at each collected `tr` but does descend into nested `table`
elements — and rebuilds the table from the collected list exactly as the
claim describes: no children when the list is empty, otherwise a `thead`
holding the first `tr` followed by a `tbody` holding the rest, all other
original children discarded. -/
theorem restruct_table_characterization :
    (∀ (a : AttrMap) (cs : List Node),
      restruct (Node.element "table" a cs) =
        match collectTrList cs with
        | [] => Node.element "table" a []
        | h :: t =>
          Node.element "table" a
            [Node.element "thead" [] [h], Node.element "tbody" [] t]) ∧
    (∀ (a : AttrMap) (cs : List Node),
      collectTr (Node.element "table" a cs) = collectTrList cs) := by
  constructor
  · intro a cs
    rw [restruct_table_eq]
    cases h : collectTrList cs <;> simp [restructTable, h]
  · intro a cs
    rw [collectTr, if_neg (by decide)]

/-- C6 (code_bug evidence): rendering a list item applies no indentation at
all: converting an `ol` with class `foo-1` yields unindented output even
though `Element::list_depth` (a dead helper in this snapshot — render.rs
never calls it) extracts depth 1 from that class, and the test
`test_convert_indented_ol_in_google_doc_tyle` in main.rs asserts the
four-space-indented output `"    1. hello\n    1. world\n"`. -/
theorem convert_applies_no_list_indentation :
    convert "<html><head></head><body><ol class=\"foo-1\"><li>hello</li><li>world</li></ol></body></html>" =
      .ok "1. hello\n1. world\n" ∧
    listDepth [("class", "foo-1")] = 1 := ⟨rfl, rfl⟩

/-- C8: for every name in the fixed void-element set, `<tag>` and `<tag/>`
each tokenize to a single `Void` token with that name, and `</tag>` is
malformed and skipped, producing no token at all. -/
theorem void_element_tokenization :
    ∀ name, isVoidElement name = true →
      tokenize ("<" ++ name ++ ">") = .ok [.tag ⟨name, .void, []⟩] ∧
      tokenize ("<" ++ name ++ "/>") = .ok [.tag ⟨name, .void, []⟩] ∧
      tokenize ("</" ++ name ++ ">") = .ok [] := by
  intro name h
  simp only [isVoidElement, Bool.or_eq_true, decide_eq_true_eq] at h
  rcases h with (((((((((((((h | h) | h) | h) | h) | h) | h) | h) | h) | h) | h) | h) | h) | h) <;>
    subst h <;> exact ⟨rfl, rfl, rfl⟩

/-- Witness for C8 at the concrete name `br`. -/
theorem void_element_tokenization_witness :
    tokenize ("<" ++ "br" ++ ">") = .ok [.tag ⟨"br", .void, []⟩] ∧
    tokenize ("<" ++ "br" ++ "/>") = .ok [.tag ⟨"br", .void, []⟩] ∧
    tokenize ("</" ++ "br" ++ ">") = .ok [] :=
  void_element_tokenization "br" rfl

/-- C7 (counterexample): a tree can contain an `li` with no `ul`/`ol`
ancestor and still render successfully, because the renderer never visits
children of suppressed elements: a `form` wrapping a bare `li` renders to
empty output (plus the appended final newline), not to `OutsideOfList`. -/
theorem render_skips_li_inside_suppressed_element :
    render (.element "form" [] [.element "li" [] [.text "x"]]) = .ok "\n" ∧
    render (.element "form" [] [.element "li" [] [.text "x"]]) ≠
      .error .outsideOfList := by
  constructor
  · rfl
  · intro h
    have h2 : (Except.ok "\n" : Except RFail String) = .error .outsideOfList := h
    exact Except.noConfusion h2

/-- C7 (amended): whenever the renderer actually reaches an `li` element, a
context stack holding no `ul`/`ol` frame makes it fail with
`OutsideOfList` before rendering any content — in particular rendering a
tree whose root is a bare `li` fails that way — and when the nearest list
frame exists the marker is `-` under `ul` and `1.` under `ol`. -/
theorem li_rendering_characterization :
    (∀ (ctx : List String) (parentTag : String) (a : AttrMap) (cs : List Node),
      getLastListTag (parentTag :: ctx) = none →
        renderNode ctx parentTag (.element "li" a cs) = .error .outsideOfList) ∧
    (∀ (ctx : List String) (parentTag : String) (a : AttrMap) (cs : List Node),
      getLastListTag (parentTag :: ctx) = some "ul" →
        renderNode ctx parentTag (.element "li" a cs) =
          Except.map (prependListMarker "-")
            (renderContainer (parentTag :: ctx) "li" [] "" cs)) ∧
    (∀ (ctx : List String) (parentTag : String) (a : AttrMap) (cs : List Node),
      getLastListTag (parentTag :: ctx) = some "ol" →
        renderNode ctx parentTag (.element "li" a cs) =
          Except.map (prependListMarker "1.")
            (renderContainer (parentTag :: ctx) "li" [] "" cs)) ∧
    (∀ (a : AttrMap) (cs : List Node),
      render (.element "li" a cs) = .error .outsideOfList) := by
  refine ⟨?_, ?_, ?_, ?_⟩
  · intro ctx parentTag a cs h
    rw [renderNode]
    simp only [show handlerOf "li" = Handler.hLi from rfl, h]
  · intro ctx parentTag a cs h
    rw [renderNode]
    simp only [show handlerOf "li" = Handler.hLi from rfl, h]
    cases renderContainer (parentTag :: ctx) "li" [] "" cs <;> rfl
  · intro ctx parentTag a cs h
    rw [renderNode]
    simp only [show handlerOf "li" = Handler.hLi from rfl, h]
    cases renderContainer (parentTag :: ctx) "li" [] "" cs <;> rfl
  · intro a cs
    rfl

/-- Witness for C7 at concrete stacks and children. -/
theorem li_rendering_characterization_witness :
    renderNode ["body"] "div" (.element "li" [] [.text "x"]) =
      .error .outsideOfList ∧
    renderNode ["body"] "ul" (.element "li" [] [.text "x"]) =
      Except.map (prependListMarker "-")
        (renderContainer ["ul", "body"] "li" [] "" [.text "x"]) ∧
    renderNode ["body"] "ol" (.element "li" [] [.text "x"]) =
      Except.map (prependListMarker "1.")
        (renderContainer ["ol", "body"] "li" [] "" [.text "x"]) :=
  ⟨li_rendering_characterization.1 ["body"] "div" [] [.text "x"] rfl,
   li_rendering_characterization.2.1 ["body"] "ul" [] [.text "x"] rfl,
   li_rendering_characterization.2.2.1 ["body"] "ol" [] [.text "x"] rfl⟩

/-- The final character of a string extended by a newline is a newline. -/
theorem endsWithNewline_append (s : String) : endsWithNewline (s ++ "\n") = true := by
  have hd : (s ++ "\n").data = s.data ++ ['\n'] := rfl
  rw [endsWithNewline, hd, List.getLast?_concat]
  simp

/-- C4 (counterexample): a successful conversion can end in two newlines:
trailing `<br>` elements leave the rendered body ending in `"\n\n"`, and
`render` appends nothing when the content already ends with a newline. -/
theorem convert_can_end_in_two_newlines :
    convert "<html><head></head><body><p>a</p><br><br></body></html>" = .ok "a\n\n" ∧
    "a\n\n".data.getLast? = some '\n' ∧
    "a\n\n".data.dropLast.getLast? = some '\n' := ⟨rfl, rfl, rfl⟩

/-- C4 (amended): every successful conversion ends with at least one
newline — `render` appends one exactly when the rendered content lacks a
final newline, but never trims newlines the content already ends with. -/
theorem convert_output_ends_with_newline :
    ∀ (source md : String), convert source = .ok md → endsWithNewline md = true := by
  intro source md h
  rw [convert] at h
  split at h
  · exact Except.noConfusion h
  · exact Except.noConfusion h
  · split at h
    · exact Except.noConfusion h
    · exact Except.noConfusion h
    · split at h
      · exact Except.noConfusion h
      · exact Except.noConfusion h
      · next node md0 heq =>
          cases h
          rw [render] at heq
          split at heq
          · next r hrn =>
              cases heq
              by_cases he : endsWithNewline r = true
              · rw [if_pos he]
                exact he
              · rw [if_neg he]
                exact endsWithNewline_append r
          · exact Except.noConfusion heq

/-- Witness for C4 at a concrete successful conversion. -/
theorem convert_output_ends_with_newline_witness :
    endsWithNewline "hello\n" = true :=
  convert_output_ends_with_newline "<html><head></head><body>hello</body></html>"
    "hello\n" rfl

/-! ## Panic-freedom lemmas for the renderer -/

/-- Members of a safe list are safe. -/
theorem safeList_mem :
    ∀ l : List Node, safeList l = true → ∀ c ∈ l, safeNode c = true := by
  intro l
  induction l with
  | nil => intro _ c hc; cases hc
  | cons n ns ih =>
    intro h c hc
    rw [safeList, Bool.and_eq_true] at h
    rcases List.mem_cons.mp hc with rfl | hc2
    · exact h.1
    · exact ih h.2 c hc2

/-- Embeds `render_children` cannot panic when no child render panics. -/
theorem renderChildren_no_panic :
    ∀ (l : List Node) (ctx : List String) (tag : String),
      (∀ c ∈ l, ∀ ctx2 p2, renderNode ctx2 p2 c ≠ .error .panicked) →
      renderChildren ctx tag l ≠ .error .panicked := by
  intro l
  induction l with
  | nil => intro ctx tag _ h; exact Except.noConfusion h
  | cons c rest ih =>
    intro ctx tag hmem h
    rw [renderChildren] at h
    split at h
    · split at h
      · exact Except.noConfusion h
      · next e hr =>
          injection h with h2
          subst h2
          exact ih ctx tag (fun d hd => hmem d (List.mem_cons_of_mem c hd)) hr
    · next e hc =>
        injection h with h2
        subst h2
        exact hmem c (List.mem_cons_self c rest) ctx tag hc

/-- The shared cell/part collection cannot panic when no child render
panics. -/
theorem renderParts_no_panic :
    ∀ (l : List Node) (ctx : List String) (tag : String),
      (∀ c ∈ l, ∀ ctx2 p2, renderNode ctx2 p2 c ≠ .error .panicked) →
      renderParts ctx tag l ≠ .error .panicked := by
  intro l
  induction l with
  | nil => intro ctx tag _ h; exact Except.noConfusion h
  | cons c rest ih =>
    intro ctx tag hmem h
    rw [renderParts] at h
    split at h
    · split at h
      · exact Except.noConfusion h
      · next e hr =>
          injection h with h2
          subst h2
          exact ih ctx tag (fun d hd => hmem d (List.mem_cons_of_mem c hd)) hr
    · next e hc =>
        injection h with h2
        subst h2
        exact hmem c (List.mem_cons_self c rest) ctx tag hc

/-- The paragraph-grouping container cannot panic when no child render
panics. -/
theorem renderContainer_no_panic :
    ∀ (l : List Node) (ctx : List String) (tag : String) (parts : List String)
      (part : String),
      (∀ c ∈ l, ∀ ctx2 p2, renderNode ctx2 p2 c ≠ .error .panicked) →
      renderContainer ctx tag parts part l ≠ .error .panicked := by
  intro l
  induction l with
  | nil => intro ctx tag parts part _ h; exact Except.noConfusion h
  | cons n rest ih =>
    intro ctx tag parts part hmem h
    rw [renderContainer] at h
    have hrest : ∀ c ∈ rest, ∀ ctx2 p2, renderNode ctx2 p2 c ≠ .error .panicked :=
      fun d hd => hmem d (List.mem_cons_of_mem n hd)
    split at h
    · split at h
      · split at h
        · exact ih ctx tag _ _ hrest h
        · exact ih ctx tag _ _ hrest h
      · exact ih ctx tag _ _ hrest h
    · next e hc =>
        injection h with h2
        subst h2
        exact hmem n (List.mem_cons_self n rest) ctx tag hc

/-- The body search of the `html` handler cannot panic when a `body` child
exists and no child render panics. -/
theorem renderHtmlBody_no_panic :
    ∀ (l : List Node) (ctx : List String) (t : String),
      l.any isBodyNode = true →
      (∀ c ∈ l, ∀ ctx2 p2, renderNode ctx2 p2 c ≠ .error .panicked) →
      renderHtmlBody ctx t l ≠ .error .panicked := by
  intro l
  induction l with
  | nil => intro ctx t hany _ _; simp at hany
  | cons n rest ih =>
    intro ctx t hany hmem h
    rw [renderHtmlBody] at h
    split at h
    · exact hmem n (List.mem_cons_self n rest) ctx t h
    · next hb =>
        have hany2 : rest.any isBodyNode = true := by
          rw [List.any_cons] at hany
          rcases Bool.or_eq_true_iff.mp hany with h1 | h1
          · exact absurd h1 hb
          · exact h1
        exact ih ctx t hany2 (fun d hd => hmem d (List.mem_cons_of_mem n hd)) h

/-- The literal-HTML wrapper cannot panic when its content result is not a
panic. -/
theorem htmlFormWrap_no_panic :
    ∀ (t : String) (a : AttrMap) (r : Except RFail String),
      r ≠ .error .panicked → htmlFormWrap t a r ≠ .error .panicked := by
  intro t a r hr h
  rw [htmlFormWrap.eq_def] at h
  split at h
  · exact Except.noConfusion h
  · split at h
    · exact Except.noConfusion h
    · exact hr h

/-- Rendering a safe tree never reaches a panicking branch, over every
context stack and parent frame. -/
theorem renderNode_safe_no_panic :
    ∀ n, safeNode n = true →
      ∀ ctx parentTag, renderNode ctx parentTag n ≠ .error .panicked := by
  intro n
  induction n using nodeInductionOn with
  | ht s => intro _ ctx p h; exact Except.noConfusion h
  | he t a cs ih =>
    intro hsafe ctx p h
    rw [safeNode, Bool.and_eq_true] at hsafe
    obtain ⟨hloc, hlist⟩ := hsafe
    have hchild : ∀ c ∈ cs, ∀ ctx2 p2, renderNode ctx2 p2 c ≠ .error .panicked :=
      fun c hc => ih c hc (safeList_mem cs hlist c hc)
    rw [renderNode] at h
    split at h
    · exact renderChildren_no_panic cs _ t hchild h
    · split at h
      · exact Except.noConfusion h
      · next e hr =>
          injection h with h2
          subst h2
          exact renderChildren_no_panic cs _ t hchild hr
    · exact renderContainer_no_panic cs _ t [] "" hchild h
    · split at h
      · exact Except.noConfusion h
      · next e hr =>
          injection h with h2
          subst h2
          exact renderContainer_no_panic cs _ t [] "" hchild hr
    · split at h
      · exact Except.noConfusion h
      · next e hr =>
          injection h with h2
          subst h2
          exact renderParts_no_panic cs _ t hchild hr
    · split at h
      · split at h
        · exact Except.noConfusion h
        · next e hr =>
            injection h with h2
            subst h2
            exact renderContainer_no_panic cs _ t [] "" hchild hr
      · split at h
        · exact Except.noConfusion h
        · next e hr =>
            injection h with h2
            subst h2
            exact renderContainer_no_panic cs _ t [] "" hchild hr
      · injection h with h2
        exact RFail.noConfusion h2
    · split at h
      · split at h
        · exact htmlFormWrap_no_panic t a _ (fun hx => Except.noConfusion hx) h
        · split at h
          · exact Except.noConfusion h
          · exact Except.noConfusion h
      · next e hr =>
          injection h with h2
          subst h2
          exact renderChildren_no_panic cs _ t hchild hr
    · exact htmlFormWrap_no_panic t a _ (renderChildren_no_panic cs _ t hchild) h
    · exact Except.noConfusion h
    · exact Except.noConfusion h
    · next heq =>
        simp only [safeLocal, heq] at hloc
        exact renderHtmlBody_no_panic cs _ t hloc hchild h
    · next heq =>
        simp only [safeLocal, heq] at hloc
        cases cs with
        | nil => simp at hloc
        | cons n rest =>
          cases n with
          | text s2 => simp at hloc
          | element tt a2 c2 =>
            have htt : tt = "tr" := by simpa using hloc
            subst htt
            split at h
            · simp at h
            · next e hr =>
                injection h with h2
                subst h2
                exact renderChildren_no_panic _ _ t hchild hr
    · split at h
      · exact Except.noConfusion h
      · next e hr =>
          injection h with h2
          subst h2
          exact renderParts_no_panic cs _ t hchild hr
    · exact Except.noConfusion h
    · exact Except.noConfusion h

/-- C10 (counterexample): a parse-reachable tree makes the renderer panic:
`<thead></thead>` directly inside `body` parses, the restructurer leaves it
unchanged (its parent is not a `table`), and the `thead` handler's
`children[0]` access fires on the empty child list. -/
theorem render_panics_on_bare_thead :
    convert "<html><head></head><body><thead></thead></body></html>" =
      .error .renderPanicked := rfl

/-- C10 (amended): rendering reaches no panicking branch on any tree in
which every `thead`-dispatched element's first child is a `tr` element and
every `html`-dispatched element has a `body` child (`safeNode`): on such
trees `render` returns `Ok` or `Err(OutsideOfList)`.  Trees produced by
restruct-after-parse need not satisfy this (a bare `<thead></thead>`
parses and panics), so the panicking branches are reachable from the
pipeline. -/
theorem render_no_panic_on_safe_trees :
    ∀ n, safeNode n = true → render n ≠ .error .panicked := by
  intro n hs h
  rw [render] at h
  split at h
  · exact Except.noConfusion h
  · next e hr =>
      injection h with h2
      subst h2
      exact renderNode_safe_no_panic n hs [] "" hr

/-- Witness for C10 at a concrete safe tree. -/
theorem render_no_panic_on_safe_trees_witness :
    render (.element "body" [] [.text "hi"]) ≠ .error .panicked :=
  render_no_panic_on_safe_trees (.element "body" [] [.text "hi"]) rfl
